import Mathlib

/-!
Verification development for the `dandisets-linkml-status-tools` repository.

The Python sources are shallowly embedded as Lean definitions:

* pure functions of `cmd_funcs/diff_manifests_reports.py` (the diff builder,
  the keying function, the error representation and categorization helpers,
  the supporting-file writer) become Lean functions over explicit data;
* Python `dict`s become association lists with Python-`dict` insertion
  semantics (first-insertion position kept, value overwritten, lookup by key);
* Python `sorted` becomes insertion sort by the corresponding total preorder;
  `Path` ordering in CPython compares the joined path strings, which is
  modelled by comparing the `/`-joined component strings code-point-wise;
* Python `str`/`int` on integers become `int_repr`/`int_parse` below;
* fallible code (missing files, unsupported report variants) returns `Except`;
* filesystem effects of the report writers become explicit state passing over
  a small filesystem model together with an event trace.
-/

namespace DLST

/-! ## Python string comparison (code-point lexicographic) -/

/-- Code-point lexicographic strict comparison of character lists, the order
Python uses for `str` comparison. -/
def charListLt : List Char → List Char → Bool
  | [], [] => false
  | [], _ :: _ => true
  | _ :: _, [] => false
  | c1 :: t1, c2 :: t2 => if c1 = c2 then charListLt t1 t2 else decide (c1 < c2)

/-- Python `a < b` on strings. -/
def strLt (a b : String) : Bool := charListLt a.data b.data

/-- Python `a <= b` on strings. -/
def strLe (a b : String) : Bool := !(charListLt b.data a.data)

/-! ## Python decimal rendering and parsing of integers -/

/-- Character of a decimal digit value. -/
def digit_char : Nat → Char
  | 0 => '0'
  | 1 => '1'
  | 2 => '2'
  | 3 => '3'
  | 4 => '4'
  | 5 => '5'
  | 6 => '6'
  | 7 => '7'
  | 8 => '8'
  | 9 => '9'
  | _ => '*'

/-- Numeric value of a decimal digit character. -/
def char_digit (c : Char) : Nat := c.toNat - '0'.toNat

/-- Least-significant-first decimal digits of a natural number, driven by
fuel; the number itself is enough fuel. -/
def nat_digits_aux : Nat → Nat → List Nat
  | 0, _ => []
  | _ + 1, 0 => []
  | fuel + 1, n + 1 => ((n + 1) % 10) :: nat_digits_aux fuel ((n + 1) / 10)

/-- Least-significant-first decimal digits of a natural number. -/
def nat_to_digits (n : Nat) : List Nat := nat_digits_aux n n

/-- Value of a least-significant-first decimal digit list. -/
def digits_val : List Nat → Nat
  | [] => 0
  | d :: ds => d + 10 * digits_val ds

/-- Python `str` on a non-negative integer: most-significant-first decimal
digits, with `0` rendered as "0". -/
def nat_repr (n : Nat) : String :=
  if n = 0 then "0" else String.mk (((nat_to_digits n).map digit_char).reverse)

/-- Python `str` on an integer. -/
def int_repr (n : Int) : String :=
  if n < 0 then "-" ++ nat_repr n.natAbs else nat_repr n.toNat

/-- Value of a most-significant-first decimal digit character list. -/
def nat_parse_chars (cs : List Char) : Nat := digits_val ((cs.map char_digit).reverse)

/-- Python `int` on a decimal character list (total model: garbage input
parses to some integer instead of raising; the sources only parse strings
previously produced by `str` on an integer). -/
def int_parse_chars : List Char → Int
  | [] => 0
  | c :: cs => if c = '-' then -(nat_parse_chars cs : Nat) else (nat_parse_chars (c :: cs) : Nat)

/-- Python `int` on a decimal string. -/
def int_parse (s : String) : Int := int_parse_chars s.data

/-! ## Python dict as an association list -/

/-- Association-list model of a Python `dict`: unique keys, insertion order
preserved, later insertion of an existing key overwrites the value in place. -/
abbrev Dict (K V : Type) := List (K × V)

/-- Python `d.get(k)` / `d.get(k, None)`. -/
def dictGet {K V : Type} [DecidableEq K] : Dict K V → K → Option V
  | [], _ => none
  | (k1, v1) :: rest, k => if k1 = k then some v1 else dictGet rest k

/-- Python `d[k] = v`: overwrite in place, or append a new binding. -/
def dictInsert {K V : Type} [DecidableEq K] : Dict K V → K → V → Dict K V
  | [], k, v => [(k, v)]
  | (k1, v1) :: rest, k, v =>
    if k1 = k then (k, v) :: rest else (k1, v1) :: dictInsert rest k v

/-- Python `d.keys()`. -/
def dictKeys {K V : Type} (m : Dict K V) : List K := m.map Prod.fst

/-! ## Data model

Modelled from the spec: the `dandisets_linkml_status_tools.models` module is
not among the provided sources.  Per the spec data model, an error location
is an ordered sequence of path segments that are strings or integer array
indices; pydantic-origin errors carry `type`, `msg`, `loc`; jsonschema-origin
errors carry `message`, `absolute_path`, `absolute_schema_path`; a
dandiset-level report is keyed by `(dandiset_identifier, dandiset_version)`
and an asset-level report additionally carries `asset_id`, `asset_path` and
the integer `asset_idx`; each report holds one error list per validator. -/

/-- One segment of an error location/path: a string key or an integer array
index (the segment kinds the spec admits). -/
inductive Seg
  | str (s : String)
  | idx (n : Int)
deriving DecidableEq, Repr

/-- A pydantic-origin validation error record (the `dict` with keys `type`,
`msg`, `loc` that the diff sources consume). -/
structure PydanticErr where
  type_ : String
  msg : String
  loc : List Seg
deriving DecidableEq, Repr

/-- A jsonschema-origin validation error record
(`JsonschemaValidationErrorModel`). -/
structure JsonschemaErr where
  message : String
  absolute_path : List Seg
  absolute_schema_path : List Seg
deriving DecidableEq, Repr

/-- A dandiset-level validation report (`DandisetValidationReport`), with the
fields the diff sources consume. -/
structure DandisetValidationReport where
  dandiset_identifier : String
  dandiset_version : String
  pydantic_validation_errs : List PydanticErr
  jsonschema_validation_errs : List JsonschemaErr
deriving DecidableEq, Repr

/-- An asset-level validation report (`AssetValidationReport`), with the
fields the diff sources consume. -/
structure AssetValidationReport where
  dandiset_identifier : String
  dandiset_version : String
  asset_id : Option String
  asset_path : Option String
  asset_idx : Int
  pydantic_validation_errs : List PydanticErr
  jsonschema_validation_errs : List JsonschemaErr
deriving DecidableEq, Repr

/-- `DandisetValidationReportsType`: a dandiset report collection is a nested
mapping dandiset identifier to version to report (the diff builder fetches
with `reports.get(id_, {}).get(ver, None)`). -/
abbrev DandisetValidationReports := Dict String (Dict String DandisetValidationReport)

/-- `AssetValidationReportsType`: an asset report collection is a sequence of
asset-level reports. -/
abbrev AssetValidationReports := List AssetValidationReport

/-! ## Error representation and categorization
(`cmd_funcs/diff_manifests_reports.py`) -/

/-- `PydanticValidationErrRep`: type, msg, loc, and the path of the metadata
instance the error pertains to. -/
abbrev PydanticValidationErrRep := String × String × List Seg × List String

/-- `JsonschemaValidationErrRep`: the error model and the instance path. -/
abbrev JsonschemaValidationErrRep := JsonschemaErr × List String

/-- Python expression replacing a location segment by the literal wildcard
token when and only when its runtime type is `int`. -/
def wildcard_segment : Seg → String
  | .idx _ => "[*]"
  | .str s => s

/-- `pydantic_err_rep`: tuple representation of a pydantic validation error
for counting. -/
def pydantic_err_rep (err : PydanticErr) (path : List String) : PydanticValidationErrRep :=
  (err.type_, err.msg, err.loc, path)

/-- `jsonschema_err_rep`: tuple representation of a jsonschema validation
error for counting. -/
def jsonschema_err_rep (err : JsonschemaErr) (path : List String) : JsonschemaValidationErrRep :=
  (err, path)

/-- `pydantic_err_categorizer`: drop the instance path and replace every
array index of the loc with the wildcard token. -/
def pydantic_err_categorizer (err : PydanticValidationErrRep) : String × String × List String :=
  (err.1, err.2.1, err.2.2.1.map wildcard_segment)

/-- `jsonschema_err_categorizer`: the absolute schema path together with the
absolute path with every array index replaced by the wildcard token. -/
def jsonschema_err_categorizer (err : JsonschemaValidationErrRep) : List Seg × List String :=
  (err.1.absolute_schema_path, err.1.absolute_path.map wildcard_segment)

/-- Pointwise comparison of two locations: equal everywhere except possibly
at segments that are integer array indices on both sides (the hypothesis of
the index-wildcarding claim). -/
def locs_differ_only_at_indices : List Seg → List Seg → Bool
  | [], [] => true
  | .idx _ :: t1, .idx _ :: t2 => locs_differ_only_at_indices t1 t2
  | s1 :: t1, s2 :: t2 => s1 = s2 && locs_differ_only_at_indices t1 t2
  | _, _ => false

/-! ## Structural diff

Modelled from the spec: the diff of two error lists is computed by the
external `jsondiff` collaborator, described by the spec as "a generic
deep-structural diff producing additions/removals/substitutions".  It is
modelled positionally on the two lists: positions present only in the second
list are additions, positions present only in the first are removals, and
positions where the lists disagree are substitutions.  The diff of two equal
lists is empty, matching the falsy empty diff of the source. -/

/-- Structural diff value of two error lists: additions (position and new
element), removals (positions), and substitutions (position and new
element). -/
structure StructuralDiff (A : Type) where
  inserted : List (Nat × A)
  deleted : List Nat
  changed : List (Nat × A)
deriving DecidableEq, Repr

/-- Empty test of a diff value (Python truthiness of the diff object). -/
def StructuralDiff.isEmpty {A : Type} (d : StructuralDiff A) : Bool :=
  d.inserted.isEmpty && d.deleted.isEmpty && d.changed.isEmpty

/-- Modelled from the spec: positional structural diff of two lists
(the jsondiff collaborator applied to two error lists, `marshal=True`). -/
def structural_diff {A : Type} [DecidableEq A] (l1 l2 : List A) : StructuralDiff A :=
  { inserted := List.enumFrom l1.length (l2.drop l1.length)
    deleted := List.range' l2.length (l1.length - l2.length)
    changed := (l1.zip l2).enum.filterMap
      (fun p => if p.2.1 = p.2.2 then none else some (p.1, p.2.2)) }

/-! ## Validation diff reports (`cmd_funcs/diff_manifests_reports.py`) -/

/-- Base class of DANDI validation diff reports
(`_DandiValidationDiffReport`): both sides of each validator origin and the
corresponding diff objects, plus the identifying fields of
`DandiBaseReport`. -/
structure DandiValidationDiffReport where
  dandiset_identifier : String
  dandiset_version : String
  pydantic_validation_errs1 : List PydanticErr
  pydantic_validation_errs2 : List PydanticErr
  pydantic_validation_errs_diff : StructuralDiff PydanticErr
  jsonschema_validation_errs1 : List JsonschemaErr
  jsonschema_validation_errs2 : List JsonschemaErr
  jsonschema_validation_errs_diff : StructuralDiff JsonschemaErr
deriving DecidableEq, Repr

/-- Dandiset validation diff report (`_DandisetValidationDiffReport` adds no
field to the base class). -/
abbrev DandisetValidationDiffReport := DandiValidationDiffReport

/-- Asset validation diff report (`_AssetValidationDiffReport`). -/
structure AssetValidationDiffReport extends DandiValidationDiffReport where
  asset_id : Option String
  asset_path : Option String
  asset_idx : Int
deriving DecidableEq, Repr

/-! ## Iteration order of entity keys

Python `sorted` on tuples of strings compares component-wise; `sorted` on
`Path`s compares the joined path strings (CPython compares the string forms
of paths of the same flavour). -/

/-- Python tuple-of-two-strings comparison, as used by
`sorted(entries)` in the dandiset diff builder. -/
def dandisetEntryLE (a b : String × String) : Prop :=
  strLt a.1 b.1 = true ∨ (a.1 = b.1 ∧ strLe a.2 b.2 = true)

instance : DecidableRel dandisetEntryLE := fun a b => by
  unfold dandisetEntryLE; infer_instance

/-- Joined string form of a `Path` built from components. -/
def pathStr (p : List String) : String := String.intercalate "/" p

/-- Python `Path` comparison, as used by `sorted(rs1.keys() | rs2.keys())`
in the asset diff builder: code-point comparison of the joined strings. -/
def pathLE (a b : List String) : Prop := strLe (pathStr a) (pathStr b) = true

instance : DecidableRel pathLE := fun a b => by
  unfold pathLE; infer_instance

/-! ## The diff builders -/

/-- Modelled from the spec: `get_validation_reports_entries` (from the
`tools` package, not among the provided sources) enumerates the
`EntityKey`s — `(dandiset_identifier, dandiset_version)` pairs — present in
a collection of dandiset validation reports. -/
def get_validation_reports_entries (reports : DandisetValidationReports) :
    List (String × String) :=
  reports.flatMap (fun p => p.2.map (fun q => (p.1, q.1)))

/-- Fetch of `reports.get(id_, {}).get(ver, None)`. -/
def dandiset_reports_get (reports : DandisetValidationReports) (id_ ver : String) :
    Option DandisetValidationReport :=
  (dictGet reports id_).bind (fun d => dictGet d ver)

/-- Error lists of one side at one entry: the report fields when the entry is
present, empty lists when it is absent. -/
def dandiset_entry_errs (reports : DandisetValidationReports) (id_ ver : String) :
    List PydanticErr × List JsonschemaErr :=
  match dandiset_reports_get reports id_ ver with
  | some r => (r.pydantic_validation_errs, r.jsonschema_validation_errs)
  | none => ([], [])

/-- Skip test of the dandiset diff loop: Python
`not any((pydantic_errs1, pydantic_errs2, jsonschema_errs1,
jsonschema_errs2))`, all four fetched error lists empty. -/
def dandiset_entry_all_empty (reports1 reports2 : DandisetValidationReports)
    (e : String × String) : Bool :=
  (dandiset_entry_errs reports1 e.1 e.2).1.isEmpty &&
  (dandiset_entry_errs reports2 e.1 e.2).1.isEmpty &&
  (dandiset_entry_errs reports1 e.1 e.2).2.isEmpty &&
  (dandiset_entry_errs reports2 e.1 e.2).2.isEmpty

/-- Loop body of `_dandiset_validation_diff_reports`: fetch both sides at the
entry, skip the entry when all four error lists are empty, and otherwise emit
the diff report. -/
def dandiset_diff_at (reports1 reports2 : DandisetValidationReports)
    (e : String × String) : Option DandisetValidationDiffReport :=
  if dandiset_entry_all_empty reports1 reports2 e then
    none
  else
    some
      { dandiset_identifier := e.1
        dandiset_version := e.2
        pydantic_validation_errs1 := (dandiset_entry_errs reports1 e.1 e.2).1
        pydantic_validation_errs2 := (dandiset_entry_errs reports2 e.1 e.2).1
        pydantic_validation_errs_diff :=
          structural_diff (dandiset_entry_errs reports1 e.1 e.2).1
            (dandiset_entry_errs reports2 e.1 e.2).1
        jsonschema_validation_errs1 := (dandiset_entry_errs reports1 e.1 e.2).2
        jsonschema_validation_errs2 := (dandiset_entry_errs reports2 e.1 e.2).2
        jsonschema_validation_errs_diff :=
          structural_diff (dandiset_entry_errs reports1 e.1 e.2).2
            (dandiset_entry_errs reports2 e.1 e.2).2 }

/-- `_dandiset_validation_diff_reports`: iterate the sorted union of the
entries of the two collections and emit one diff report per entry with at
least one error on some side. -/
def dandiset_validation_diff_reports (reports1 reports2 : DandisetValidationReports) :
    List DandisetValidationDiffReport :=
  (List.insertionSort dandisetEntryLE
      ((get_validation_reports_entries reports1 ++
        get_validation_reports_entries reports2).dedup)).filterMap
    (dandiset_diff_at reports1 reports2)

/-- Path key of one asset validation report, as `_key_reports` builds it for
asset-level reports: `Path(dandiset_identifier, dandiset_version,
str(asset_idx))`. -/
def asset_report_key (r : AssetValidationReport) : List String :=
  [r.dandiset_identifier, r.dandiset_version, int_repr r.asset_idx]

/-- `_key_reports` applied to an asset report collection (the typed use made
by `_asset_validation_diff_reports`): a dict comprehension keyed by the
instance path, later reports silently overwriting earlier ones with the same
key. -/
def key_asset_reports (reports : AssetValidationReports) :
    Dict (List String) AssetValidationReport :=
  reports.foldl (fun m r => dictInsert m (asset_report_key r) r) []

/-- Error lists of one side at one asset entry. -/
def asset_entry_errs (rs : Dict (List String) AssetValidationReport)
    (entry : List String) : List PydanticErr × List JsonschemaErr :=
  match dictGet rs entry with
  | some r => (r.pydantic_validation_errs, r.jsonschema_validation_errs)
  | none => ([], [])

/-- Loop body of `_asset_validation_diff_reports`.  The final pattern match
mirrors `entry.parts` unpacking into exactly three components; keys produced
by `_key_reports` always have three components, so the fallback branch is
unreachable on the inputs the source constructs (Python would raise on the
unpacking otherwise). -/
def asset_entry_all_empty (rs1 rs2 : Dict (List String) AssetValidationReport)
    (entry : List String) : Bool :=
  (asset_entry_errs rs1 entry).1.isEmpty &&
  (asset_entry_errs rs2 entry).1.isEmpty &&
  (asset_entry_errs rs1 entry).2.isEmpty &&
  (asset_entry_errs rs2 entry).2.isEmpty

def asset_diff_at (rs1 rs2 : Dict (List String) AssetValidationReport)
    (entry : List String) : Option AssetValidationDiffReport :=
  if asset_entry_all_empty rs1 rs2 entry then
    none
  else
    match entry with
    | [dandiset_id, dandiset_ver, asset_idx_str] =>
      some
        { dandiset_identifier := dandiset_id
          dandiset_version := dandiset_ver
          asset_id :=
            match dictGet rs1 entry with
            | some r => r.asset_id
            | none => match dictGet rs2 entry with | some r => r.asset_id | none => none
          asset_path :=
            match dictGet rs1 entry with
            | some r => r.asset_path
            | none => match dictGet rs2 entry with | some r => r.asset_path | none => none
          asset_idx := int_parse asset_idx_str
          pydantic_validation_errs1 := (asset_entry_errs rs1 entry).1
          pydantic_validation_errs2 := (asset_entry_errs rs2 entry).1
          pydantic_validation_errs_diff :=
            structural_diff (asset_entry_errs rs1 entry).1 (asset_entry_errs rs2 entry).1
          jsonschema_validation_errs1 := (asset_entry_errs rs1 entry).2
          jsonschema_validation_errs2 := (asset_entry_errs rs2 entry).2
          jsonschema_validation_errs_diff :=
            structural_diff (asset_entry_errs rs1 entry).2 (asset_entry_errs rs2 entry).2 }
    | _ => none

/-- `_asset_validation_diff_reports`: key both collections by instance path,
iterate the sorted union of the keys and emit one diff report per key with at
least one error on some side. -/
def asset_validation_diff_reports (reports1 reports2 : AssetValidationReports) :
    List AssetValidationDiffReport :=
  let rs1 := key_asset_reports reports1
  let rs2 := key_asset_reports reports2
  (List.insertionSort pathLE ((dictKeys rs1 ++ dictKeys rs2).dedup)).filterMap
    (asset_diff_at rs1 rs2)

/-- Path key of an emitted asset validation diff report. -/
def asset_diff_report_key (r : AssetValidationDiffReport) : List String :=
  [r.dandiset_identifier, r.dandiset_version, int_repr r.asset_idx]

/-- Entity key of an emitted dandiset validation diff report. -/
def dandiset_diff_report_key (r : DandisetValidationDiffReport) : String × String :=
  (r.dandiset_identifier, r.dandiset_version)

/-! ## Supporting files of one diff report (`_output_supporting_files`) -/

def PYDANTIC_ERRS1_BASE_FNAME : String := "pydantic_validation_errs1"

def PYDANTIC_ERRS2_BASE_FNAME : String := "pydantic_validation_errs2"

def PYDANTIC_ERRS_DIFF_BASE_FNAME : String := "pydantic_validation_errs_diff"

def JSONSCHEMA_ERRS1_BASE_FNAME : String := "jsonschema_validation_errs1"

def JSONSCHEMA_ERRS2_BASE_FNAME : String := "jsonschema_validation_errs2"

def JSONSCHEMA_ERRS_DIFF_BASE_FNAME : String := "jsonschema_validation_errs_diff"

/-- Modelled from the spec: `write_data` (from the `tools` package, not among
the provided sources) writes one data item under a base file name in two
serializations, a data-interchange format and a structured text format. -/
def write_data_fnames (base_fname : String) : List String :=
  [base_fname ++ ".json", base_fname ++ ".yaml"]

/-- `_output_supporting_files`: for each of the six data items of a diff
report, write its files only when the data is truthy (a non-empty list or a
non-empty diff).  The returned list holds the names of the files written, in
write order. -/
def output_supporting_files (r : DandiValidationDiffReport) : List String :=
  (if !r.pydantic_validation_errs1.isEmpty then
    write_data_fnames PYDANTIC_ERRS1_BASE_FNAME else []) ++
  (if !r.pydantic_validation_errs2.isEmpty then
    write_data_fnames PYDANTIC_ERRS2_BASE_FNAME else []) ++
  (if !r.pydantic_validation_errs_diff.isEmpty then
    write_data_fnames PYDANTIC_ERRS_DIFF_BASE_FNAME else []) ++
  (if !r.jsonschema_validation_errs1.isEmpty then
    write_data_fnames JSONSCHEMA_ERRS1_BASE_FNAME else []) ++
  (if !r.jsonschema_validation_errs2.isEmpty then
    write_data_fnames JSONSCHEMA_ERRS2_BASE_FNAME else []) ++
  (if !r.jsonschema_validation_errs_diff.isEmpty then
    write_data_fnames JSONSCHEMA_ERRS_DIFF_BASE_FNAME else [])

/-! ## Runtime report-variant dispatch (`_key_reports` and `err_reps`)

The Python functions receive a sequence whose elements are, at runtime, of
arbitrary type; they branch on `isinstance` checks of the first element only.
The runtime universe is embedded as a sum of the two supported report
variants and an unsupported-variant constructor. -/

/-- A runtime value held by a report collection: one of the two supported
report variants, or a value of any other type. -/
inductive AnyReport
  | dandiset (r : DandisetValidationReport)
  | asset (r : AssetValidationReport)
  | unsupported
deriving DecidableEq, Repr

/-- The two errors the dispatching code can raise: the explicit
unsupported-type error (`ValueError`/`TypeError` on the first element), and
the `AttributeError` Python raises when `getattr` meets an element that lacks
a field of the chosen keying scheme. -/
inductive DispatchError
  | unsupportedType
  | attributeError
deriving DecidableEq, Repr

/-- Python `str(getattr(r, p))` on the attribute names the keying schemes
use; `none` models `AttributeError`. -/
def report_attr : AnyReport → String → Option String
  | .dandiset r, "dandiset_identifier" => some r.dandiset_identifier
  | .dandiset r, "dandiset_version" => some r.dandiset_version
  | .asset r, "dandiset_identifier" => some r.dandiset_identifier
  | .asset r, "dandiset_version" => some r.dandiset_version
  | .asset r, "asset_idx" => some (int_repr r.asset_idx)
  | _, _ => none

/-- Keying scheme chosen from the first element of the collection
(`isinstance` dispatch of `_key_reports`). -/
def report_key_parts : AnyReport → Except DispatchError (List String)
  | .dandiset _ => .ok ["dandiset_identifier", "dandiset_version"]
  | .asset _ => .ok ["dandiset_identifier", "dandiset_version", "asset_idx"]
  | .unsupported => .error .unsupportedType

/-- Key of one report under a keying scheme:
`Path(*(str(getattr(r, p)) for p in parts))`, evaluated left to right and
aborting at the first missing attribute. -/
def attr_key (r : AnyReport) : List String → Except DispatchError (List String)
  | [] => .ok []
  | p :: ps =>
    match report_attr r p with
    | some s => (attr_key r ps).map (fun l => s :: l)
    | none => .error .attributeError

/-- One step of the keying dict comprehension of `_key_reports`. -/
def key_reports_step (parts : List String) (m : Dict (List String) AnyReport)
    (r : AnyReport) : Except DispatchError (Dict (List String) AnyReport) := do
  let k ← attr_key r parts
  pure (dictInsert m k r)

/-- `_key_reports`: empty collection gives the empty dict; otherwise the
scheme of the first element keys every element of the collection. -/
def key_reports (reports : List AnyReport) :
    Except DispatchError (Dict (List String) AnyReport) :=
  match reports with
  | [] => .ok []
  | r0 :: _ => do
    let parts ← report_key_parts r0
    reports.foldlM (key_reports_step parts) []

/-- A runtime value held by a diff report list handed to `err_reps`. -/
inductive AnyDiffReport
  | dandiset (r : DandisetValidationDiffReport)
  | asset (r : AssetValidationDiffReport)
  | unsupported
deriving DecidableEq, Repr

/-- Instance path of one element under the dandiset scheme of `err_reps`
(`Path(r.dandiset_identifier, r.dandiset_version)`; both supported variants
carry these fields). -/
def diff_instance_path_dandiset : AnyDiffReport → Except DispatchError (List String)
  | .dandiset r => .ok [r.dandiset_identifier, r.dandiset_version]
  | .asset r => .ok [r.dandiset_identifier, r.dandiset_version]
  | .unsupported => .error .attributeError

/-- Instance path of one element under the asset scheme of `err_reps`
(`Path(r.dandiset_identifier, r.dandiset_version, str(r.asset_idx))`; a
dandiset-level element lacks `asset_idx`). -/
def diff_instance_path_asset : AnyDiffReport → Except DispatchError (List String)
  | .asset r => .ok [r.dandiset_identifier, r.dandiset_version, int_repr r.asset_idx]
  | _ => .error .attributeError

/-- The four error-list fields of one element; an unsupported value lacks
them. -/
def diff_report_errs (r : AnyDiffReport) :
    Except DispatchError
      (List PydanticErr × List PydanticErr × List JsonschemaErr × List JsonschemaErr) :=
  match r with
  | .dandiset r =>
      .ok (r.pydantic_validation_errs1, r.pydantic_validation_errs2,
        r.jsonschema_validation_errs1, r.jsonschema_validation_errs2)
  | .asset r =>
      .ok (r.pydantic_validation_errs1, r.pydantic_validation_errs2,
        r.jsonschema_validation_errs1, r.jsonschema_validation_errs2)
  | .unsupported => .error .attributeError

/-- The four collected rep lists of `err_reps`. -/
abbrev ErrRepLists :=
  List PydanticValidationErrRep × List PydanticValidationErrRep ×
    List JsonschemaValidationErrRep × List JsonschemaValidationErrRep

/-- One step of the collection loop of `err_reps`: compute the instance path
of the element, read its four error-list fields, and append the tuple
representations. -/
def err_reps_step (instance_path : AnyDiffReport → Except DispatchError (List String))
    (acc : ErrRepLists) (r : AnyDiffReport) : Except DispatchError ErrRepLists := do
  let p ← instance_path r
  let es ← diff_report_errs r
  pure (acc.1 ++ es.1.map (pydantic_err_rep · p),
    acc.2.1 ++ es.2.1.map (pydantic_err_rep · p),
    acc.2.2.1 ++ es.2.2.1.map (jsonschema_err_rep · p),
    acc.2.2.2 ++ es.2.2.2.map (jsonschema_err_rep · p))

/-- `err_reps`: pick the instance-path scheme from the first element, then
collect the tuple representations of all errors of all reports, as four
concatenated lists (err lists 1 and 2 of each origin). -/
def err_reps (rs : List AnyDiffReport) : Except DispatchError ErrRepLists :=
  match rs with
  | [] => .ok ([], [], [], [])
  | r0 :: _ => do
    let instance_path ←
      match r0 with
      | .dandiset _ => Except.ok diff_instance_path_dandiset
      | .asset _ => Except.ok diff_instance_path_asset
      | .unsupported => Except.error DispatchError.unsupportedType
    rs.foldlM (err_reps_step instance_path) ([], [], [], [])

/-! ## Pydantic validation wrappers (`tools.py` and `cli/tools.py`)

The external Pydantic model is a black box: its two validation entry points
either succeed or produce a `ValidationError` value whose `json` method
serializes the error array. -/

/-- A `ValidationError` raised by a Pydantic model, reduced to what the
sources consume: its `json()` serialization. -/
structure PydValidationError where
  json : String
deriving DecidableEq, Repr

/-- A Pydantic model as a black-box validator (external collaborator). -/
structure PydanticModel (Dict : Type) where
  model_validate_json : String → Option PydValidationError
  model_validate : Dict → Option PydValidationError

/-- The data argument of `tools.pydantic_validate`: a dict or a JSON
string. -/
inductive MetadataInput (Dict : Type)
  | str (s : String)
  | dict (d : Dict)

/-- Outcome of the underlying validator call chosen by
`tools.pydantic_validate` for a given data argument. -/
def validate_method_outcome {Dict : Type} (model : PydanticModel Dict)
    (data : MetadataInput Dict) : Option PydValidationError :=
  match data with
  | .str s => model.model_validate_json s
  | .dict d => model.model_validate d

/-- `tools.pydantic_validate`: pick `model_validate_json` for string input
and `model_validate` otherwise; catch a validation failure and return its
serialization, return the literal "[]" on success.  Totality of this
function is the never-raises guarantee. -/
def pydantic_validate {Dict : Type} (data : MetadataInput Dict)
    (model : PydanticModel Dict) : String :=
  match data with
  | .str s =>
    match model.model_validate_json s with
    | some e => e.json
    | none => "[]"
  | .dict d =>
    match model.model_validate d with
    | some e => e.json
    | none => "[]"

/-- `cli/tools.pydantic_validate`: validate dandiset metadata against the
fixed `Dandiset` Pydantic model (passed here as the black-box collaborator it
is). -/
def cli_pydantic_validate {Dict : Type} (Dandiset : PydanticModel Dict)
    (dandiset_metadata : Dict) : String :=
  match Dandiset.model_validate dandiset_metadata with
  | some e => e.json
  | none => "[]"

/-! ## The report writer (`cli/tools.output_reports`)

The filesystem state of the output path is modelled explicitly; the
operations `shutil.rmtree` (which raises `NotADirectoryError` on a
non-directory path, per its documented behaviour) and `Path.mkdir` become
transitions on that state, and the files written afterwards are recorded as
an event trace.  The summary table is written progressively in the source;
the trace records one write event per file created, which is the granularity
the recreate-then-write claim needs. -/

/-- State of the output path before/after `output_reports`. -/
inductive PathState
  | absent
  | dir (entries : List String)
  | file
deriving DecidableEq, Repr

/-- Filesystem events of `output_reports`, in order. -/
inductive FsEvent
  | rmtree
  | mkdir
  | write (fname : String)
deriving DecidableEq, Repr

/-- The one error `output_reports` raises itself: `rmtree` on an existing
non-directory output path. -/
inductive OutputError
  | notADirectoryError
deriving DecidableEq, Repr

/-- A dandiset validation report of the `cli/models` module (not among the
provided sources; modelled from the spec with the fields `output_reports`
writes: identifying fields and the three data blobs written per report). -/
structure CliDandisetValidationReport where
  dandiset_identifier : String
  dandiset_version : String
  dandiset_metadata : String
  pydantic_validation_errs : String
  linkml_validation_errs : List String
deriving DecidableEq, Repr

/-- Files `_write_data` creates for one report (each data item in a JSON and
a YAML serialization inside the report subdirectory). -/
def report_files (r : CliDandisetValidationReport) : List String :=
  let d := r.dandiset_identifier ++ "/" ++ r.dandiset_version ++ "/"
  [d ++ "metadata.json", d ++ "metadata.yaml",
   d ++ "pydantic_validation_errs.json", d ++ "pydantic_validation_errs.yaml",
   d ++ "linkml_validation_errs.json", d ++ "linkml_validation_errs.yaml"]

/-- All report content written after the output directory is recreated: the
LinkML schema, the summary document, and each report subdirectory. -/
def output_content_events (reports : List CliDandisetValidationReport) : List FsEvent :=
  FsEvent.write "dandi-linkml-schema.yml" :: FsEvent.write "summary.md" ::
    (reports.flatMap report_files).map FsEvent.write

/-- Names of the files the run leaves in the recreated output directory. -/
def output_content_names (reports : List CliDandisetValidationReport) : List String :=
  "dandi-linkml-schema.yml" :: "summary.md" :: reports.flatMap report_files

/-- `cli/tools.output_reports`: remove the output path if it exists (raising
when it is not a directory), recreate it, then write all report content into
the fresh directory. -/
def output_reports (reports : List CliDandisetValidationReport)
    (output_path : PathState) : Except OutputError (PathState × List FsEvent) :=
  match output_path with
  | .file => .error .notADirectoryError
  | .dir _ =>
      .ok (.dir (output_content_names reports),
        FsEvent.rmtree :: FsEvent.mkdir :: output_content_events reports)
  | .absent =>
      .ok (.dir (output_content_names reports),
        FsEvent.mkdir :: output_content_events reports)

/-! ## The diff entry point (`diff_manifests_reports`)

The entry point checks that the dandiset and asset report files exist in each
of the two input directories (raising a `RuntimeError` naming the first
missing file), loads them, and produces the diff reports.  Loading
(`read_reports`) and writing (`_output_validation_diff_reports`) are
performed by helpers not among the provided sources; they are modelled from
the spec as pure: an input directory stores the parsed report collections of
the files it holds, and the produced diff reports are the result value. -/

/-- An input reports directory: each of the two expected report files is
either absent or holds a loadable report collection. -/
structure ReportsDirData where
  dandiset_reports : Option DandisetValidationReports
  asset_reports : Option AssetValidationReports

/-- Existence-check and load of the two report files of one input directory,
in source order: both files are checked before either is read. -/
def check_and_load (dir_name : String) (d : ReportsDirData) :
    Except String (DandisetValidationReports × AssetValidationReports) :=
  match d.dandiset_reports, d.asset_reports with
  | none, _ => .error ("There is no file at " ++ dir_name ++ "/dandiset_validation_reports.json")
  | some _, none => .error ("There is no file at " ++ dir_name ++ "/asset_validation_reports.json")
  | some dr, some ar => .ok (dr, ar)

/-- `diff_manifests_reports`: check and load the four input report files,
then build both diff report lists (the success result; the source then
writes them and logs success). -/
def diff_manifests_reports (reports_dir1 reports_dir2 : ReportsDirData) :
    Except String (List DandisetValidationDiffReport × List AssetValidationDiffReport) := do
  let (d1, a1) ← check_and_load "reports_dir1" reports_dir1
  let (d2, a2) ← check_and_load "reports_dir2" reports_dir2
  pure (dandiset_validation_diff_reports d1 d2, asset_validation_diff_reports a1 a2)

/-! ## Companion definitions used by statements and witnesses -/

/-- Total companion of the dandiset keying scheme of `_key_reports`: both
supported report variants carry the two dandiset-scheme fields (the value at
the unsupported variant is irrelevant; the statements using this function
exclude it by hypothesis). -/
def dandi_scheme_key : AnyReport → List String
  | .dandiset r => [r.dandiset_identifier, r.dandiset_version]
  | .asset r => [r.dandiset_identifier, r.dandiset_version]
  | .unsupported => []

/-- A sample pydantic validation error. -/
def errExample : PydanticErr :=
  { type_ := "missing", msg := "Field required", loc := [Seg.str "name"] }

/-- Sample dandiset report for the entry ("ds1", "draft") with no errors. -/
def reportDs1NoErrs : DandisetValidationReport :=
  { dandiset_identifier := "ds1"
    dandiset_version := "draft"
    pydantic_validation_errs := []
    jsonschema_validation_errs := [] }

/-- Sample dandiset report for the entry ("ds1", "draft") with one pydantic
error. -/
def reportDs1OneErr : DandisetValidationReport :=
  { dandiset_identifier := "ds1"
    dandiset_version := "draft"
    pydantic_validation_errs := [errExample]
    jsonschema_validation_errs := [] }

/-- Report collection A of the one-sided-appearance example. -/
def reportsCollectionA : DandisetValidationReports :=
  [("ds1", [("draft", reportDs1NoErrs)])]

/-- Report collection B of the one-sided-appearance example. -/
def reportsCollectionB : DandisetValidationReports :=
  [("ds1", [("draft", reportDs1OneErr)])]

/-- Sample asset report at index 2 of dandiset 000001 at version draft, with
one pydantic error. -/
def assetReportIdx2 : AssetValidationReport :=
  { dandiset_identifier := "000001"
    dandiset_version := "draft"
    asset_id := some "asset-2"
    asset_path := some "path/2"
    asset_idx := 2
    pydantic_validation_errs := [errExample]
    jsonschema_validation_errs := [] }

/-- Sample asset report at index 10 of dandiset 000001 at version draft, with
one pydantic error. -/
def assetReportIdx10 : AssetValidationReport :=
  { dandiset_identifier := "000001"
    dandiset_version := "draft"
    asset_id := some "asset-10"
    asset_path := some "path/10"
    asset_idx := 10
    pydantic_validation_errs := [errExample]
    jsonschema_validation_errs := [] }

/-- A later report that collides with `assetReportIdx2` on the entity key
path but differs in content. -/
def assetReportIdx2Later : AssetValidationReport :=
  { dandiset_identifier := "000001"
    dandiset_version := "draft"
    asset_id := some "asset-2-replaced"
    asset_path := some "path/2b"
    asset_idx := 2
    pydantic_validation_errs := []
    jsonschema_validation_errs := [] }

/-- The diff report the one-sided-appearance example produces: empty side-1
lists, a one-element pydantic side-2 list, and a pure-addition pydantic
diff. -/
def exDiffReportB : DandisetValidationDiffReport :=
  { dandiset_identifier := "ds1"
    dandiset_version := "draft"
    pydantic_validation_errs1 := []
    pydantic_validation_errs2 := [errExample]
    pydantic_validation_errs_diff :=
      { inserted := [(0, errExample)], deleted := [], changed := [] }
    jsonschema_validation_errs1 := []
    jsonschema_validation_errs2 := []
    jsonschema_validation_errs_diff := { inserted := [], deleted := [], changed := [] } }

/-- A black-box Pydantic model that rejects every input with a fixed
serialized error array. -/
def modelRejecting : PydanticModel Unit :=
  { model_validate_json := fun _ => some { json := "[reject]" }
    model_validate := fun _ => some { json := "[reject]" } }

/-- A black-box Pydantic model that accepts every input. -/
def modelAccepting : PydanticModel Unit :=
  { model_validate_json := fun _ => none
    model_validate := fun _ => none }

/-! # Theorems -/

/-! ## Wildcarding (claim C2) -/

theorem locs_differ_map_wildcard : ∀ l1 l2 : List Seg,
    locs_differ_only_at_indices l1 l2 = true →
    l1.map wildcard_segment = l2.map wildcard_segment := by
  intro l1
  induction l1 with
  | nil =>
    intro l2 h
    cases l2 with
    | nil => rfl
    | cons s2 t2 => simp [locs_differ_only_at_indices] at h
  | cons s1 t1 ih =>
    intro l2 h
    cases l2 with
    | nil => cases s1 <;> simp [locs_differ_only_at_indices] at h
    | cons s2 t2 =>
      cases s1 with
      | idx n1 =>
        cases s2 with
        | idx n2 =>
          simp only [locs_differ_only_at_indices] at h
          simp [wildcard_segment, ih t2 h]
        | str s =>
          simp [locs_differ_only_at_indices] at h
      | str s =>
        cases s2 with
        | idx n2 => simp [locs_differ_only_at_indices] at h
        | str s2v =>
          simp only [locs_differ_only_at_indices, Bool.and_eq_true, decide_eq_true_eq] at h
          simp [wildcard_segment, h.1, ih t2 h.2]

/-- C2: for two error representations agreeing on all fields except that
their location sequence (loc for pydantic, absolute_path for jsonschema)
differs only at integer-typed segments, the categorizers produce identical
category keys; each integer segment maps to the literal wildcard token and
every non-integer segment is left unchanged, with the map preserving
order. -/
theorem c2_index_wildcarding :
    (∀ e1 e2 : PydanticValidationErrRep,
      e1.1 = e2.1 → e1.2.1 = e2.2.1 → e1.2.2.2 = e2.2.2.2 →
      locs_differ_only_at_indices e1.2.2.1 e2.2.2.1 = true →
      pydantic_err_categorizer e1 = pydantic_err_categorizer e2)
  ∧ (∀ j1 j2 : JsonschemaValidationErrRep,
      j1.1.message = j2.1.message →
      j1.1.absolute_schema_path = j2.1.absolute_schema_path →
      j1.2 = j2.2 →
      locs_differ_only_at_indices j1.1.absolute_path j2.1.absolute_path = true →
      jsonschema_err_categorizer j1 = jsonschema_err_categorizer j2)
  ∧ (∀ n : Int, wildcard_segment (Seg.idx n) = "[*]")
  ∧ (∀ s : String, wildcard_segment (Seg.str s) = s) := by
  refine ⟨?_, ?_, fun n => rfl, fun s => rfl⟩
  · intro e1 e2 ht hm _hp hloc
    unfold pydantic_err_categorizer
    rw [ht, hm, locs_differ_map_wildcard _ _ hloc]
  · intro j1 j2 _hm hsp _hp hloc
    unfold jsonschema_err_categorizer
    rw [hsp, locs_differ_map_wildcard _ _ hloc]

/-- Witness for C2 at concrete inputs: wildcarding collapses the locs
(assets, 3, id) and (assets, 7, id). -/
theorem c2_index_wildcarding_witness :
    pydantic_err_categorizer
        ("missing", "msg", [Seg.str "assets", Seg.idx 3, Seg.str "id"], ["000003", "draft"]) =
      pydantic_err_categorizer
        ("missing", "msg", [Seg.str "assets", Seg.idx 7, Seg.str "id"], ["000003", "draft"])
    ∧ jsonschema_err_categorizer
        ({ message := "m", absolute_path := [Seg.str "assets", Seg.idx 3],
           absolute_schema_path := [Seg.str "properties"] }, ["000003", "draft"]) =
      jsonschema_err_categorizer
        ({ message := "m", absolute_path := [Seg.str "assets", Seg.idx 7],
           absolute_schema_path := [Seg.str "properties"] }, ["000003", "draft"]) :=
  ⟨c2_index_wildcarding.1 _ _ rfl rfl rfl (by decide),
    c2_index_wildcarding.2.1 _ _ rfl rfl rfl (by decide)⟩

/-! ## Pydantic validation wrappers never raise (claim C6) -/

/-- C6: for every metadata record and model, both pydantic validation
wrappers are total String-valued functions: a validation failure is returned
as the serialized error array and a validation success returns exactly the
literal "[]"; no validation outcome escapes as an exception. -/
theorem c6_pydantic_validate_captures :
    (∀ (Dict : Type) (model : PydanticModel Dict) (data : MetadataInput Dict),
      (∀ e, validate_method_outcome model data = some e →
        pydantic_validate data model = e.json)
      ∧ (validate_method_outcome model data = none → pydantic_validate data model = "[]"))
  ∧ (∀ (Dict : Type) (Dandiset : PydanticModel Dict) (d : Dict),
      (∀ e, Dandiset.model_validate d = some e → cli_pydantic_validate Dandiset d = e.json)
      ∧ (Dandiset.model_validate d = none → cli_pydantic_validate Dandiset d = "[]")) := by
  constructor
  · intro Dict model data
    constructor
    · intro e he
      cases data with
      | str s =>
        simp only [validate_method_outcome] at he
        simp [pydantic_validate, he]
      | dict d =>
        simp only [validate_method_outcome] at he
        simp [pydantic_validate, he]
    · intro h
      cases data with
      | str s =>
        simp only [validate_method_outcome] at h
        simp [pydantic_validate, h]
      | dict d =>
        simp only [validate_method_outcome] at h
        simp [pydantic_validate, h]
  · intro Dict Dandiset d
    constructor
    · intro e he
      simp [cli_pydantic_validate, he]
    · intro h
      simp [cli_pydantic_validate, h]

/-- Witness for C6 at concrete models: the rejecting model's serialized
errors are returned, the accepting model yields the literal empty array. -/
theorem c6_pydantic_validate_captures_witness :
    pydantic_validate (MetadataInput.dict ()) modelRejecting = "[reject]"
    ∧ pydantic_validate (MetadataInput.str "x") modelAccepting = "[]"
    ∧ cli_pydantic_validate modelRejecting () = "[reject]"
    ∧ cli_pydantic_validate modelAccepting () = "[]" :=
  ⟨(c6_pydantic_validate_captures.1 Unit modelRejecting (MetadataInput.dict ())).1 _ rfl,
    (c6_pydantic_validate_captures.1 Unit modelAccepting (MetadataInput.str "x")).2 rfl,
    (c6_pydantic_validate_captures.2 Unit modelRejecting ()).1 _ rfl,
    (c6_pydantic_validate_captures.2 Unit modelAccepting ()).2 rfl⟩

/-! ## Output directory recreation (claim C7) -/

/-- C7: the report writer on an existing directory removes it and creates a
fresh directory before any report content is written (the resulting contents
are independent of the previous ones, and the trace is the removal, the
creation, then only write events); on an existing non-directory path it
fails with the raised error and writes nothing. -/
theorem c7_output_dir_recreation :
    ∀ (reports : List CliDandisetValidationReport) (c : List String),
      output_reports reports (PathState.dir c) =
        Except.ok (PathState.dir (output_content_names reports),
          FsEvent.rmtree :: FsEvent.mkdir :: output_content_events reports)
      ∧ output_reports reports PathState.file = Except.error OutputError.notADirectoryError
      ∧ (output_content_events reports).all
          (fun e => match e with | .write _ => true | _ => false) = true := by
  intro reports c
  refine ⟨rfl, rfl, ?_⟩
  have h : ∀ l : List String,
      (l.map FsEvent.write).all
        (fun e => match e with | .write _ => true | _ => false) = true := by
    intro l
    induction l with
    | nil => rfl
    | cons x xs ih => simp [ih]
  simpa [output_content_events] using h (reports.flatMap report_files)

/-! ## Missing input report files (claim C5) -/

/-- C5: the diff entry point succeeds exactly when all four expected input
report files exist (and load); a missing file on either side makes it raise
instead of producing the diff result. -/
theorem c5_missing_input_file_raises :
    ∀ d1 d2 : ReportsDirData,
      (diff_manifests_reports d1 d2).isOk = true ↔
        (d1.dandiset_reports.isSome = true ∧ d1.asset_reports.isSome = true ∧
          d2.dandiset_reports.isSome = true ∧ d2.asset_reports.isSome = true) := by
  intro d1 d2
  obtain ⟨dr1, ar1⟩ := d1
  obtain ⟨dr2, ar2⟩ := d2
  cases dr1 <;> cases ar1 <;> cases dr2 <;> cases ar2 <;>
    simp [diff_manifests_reports, check_and_load, Except.isOk, Except.toBool, bind,
      Except.bind, pure, Except.pure]

/-! ## Decimal roundtrip: Python int of str of an integer -/

theorem digits_val_nat_digits_aux :
    ∀ fuel n : Nat, n ≤ fuel → digits_val (nat_digits_aux fuel n) = n := by
  intro fuel
  induction fuel with
  | zero =>
    intro n h
    interval_cases n
    rfl
  | succ fuel ih =>
    intro n h
    match n with
    | 0 => rfl
    | Nat.succ m =>
      have h1 : (m + 1) / 10 < m + 1 := Nat.div_lt_self (Nat.succ_pos m) (by omega)
      have hd : (m + 1) / 10 ≤ fuel := by omega
      simp only [nat_digits_aux, digits_val, ih ((m + 1) / 10) hd]
      omega

theorem nat_digits_aux_lt_ten :
    ∀ fuel n : Nat, ∀ d ∈ nat_digits_aux fuel n, d < 10 := by
  intro fuel
  induction fuel with
  | zero =>
    intro n d hd
    simp [nat_digits_aux] at hd
  | succ fuel ih =>
    intro n d hd
    match n with
    | 0 => simp [nat_digits_aux] at hd
    | Nat.succ m =>
      simp only [nat_digits_aux, List.mem_cons] at hd
      rcases hd with h | h
      · omega
      · exact ih _ _ h

theorem char_digit_digit_char (d : Nat) (h : d < 10) : char_digit (digit_char d) = d := by
  interval_cases d <;> decide

theorem digit_char_ne_dash (d : Nat) (h : d < 10) : digit_char d ≠ '-' := by
  interval_cases d <;> decide

theorem nat_parse_chars_nat_repr (n : Nat) : nat_parse_chars (nat_repr n).data = n := by
  unfold nat_repr
  by_cases h : n = 0
  · subst h
    decide
  · rw [if_neg h]
    show nat_parse_chars (((nat_to_digits n).map digit_char).reverse) = n
    unfold nat_parse_chars
    rw [List.map_reverse, List.reverse_reverse, List.map_map]
    have hmap : (nat_to_digits n).map (char_digit ∘ digit_char) = nat_to_digits n := by
      have h1 : (nat_to_digits n).map (char_digit ∘ digit_char) = (nat_to_digits n).map id :=
        List.map_congr_left (fun d hd =>
          char_digit_digit_char d (nat_digits_aux_lt_ten n n d hd))
      rw [h1, List.map_id]
    rw [hmap]
    exact digits_val_nat_digits_aux n n le_rfl

theorem dash_not_mem_nat_repr (n : Nat) : '-' ∉ (nat_repr n).data := by
  unfold nat_repr
  by_cases h : n = 0
  · subst h
    decide
  · rw [if_neg h]
    intro hmem
    have hmem2 : '-' ∈ ((nat_to_digits n).map digit_char).reverse := hmem
    rw [List.mem_reverse] at hmem2
    obtain ⟨d, hd, hdc⟩ := List.mem_map.mp hmem2
    exact digit_char_ne_dash d (nat_digits_aux_lt_ten n n d hd) hdc

theorem nat_repr_data_ne_nil (n : Nat) : (nat_repr n).data ≠ [] := by
  unfold nat_repr
  by_cases h : n = 0
  · subst h
    decide
  · rw [if_neg h]
    show ((nat_to_digits n).map digit_char).reverse ≠ []
    match n, h with
    | Nat.succ m, _ =>
      simp [nat_to_digits, nat_digits_aux]

theorem bool_eq_false {b : Bool} (h : ¬b = true) : b = false := by
  cases b
  · rfl
  · exact absurd rfl h

theorem int_parse_int_repr (n : Int) : int_parse (int_repr n) = n := by
  unfold int_repr int_parse
  by_cases h : n < 0
  · rw [if_pos h]
    have hstep : int_parse_chars ('-' :: (nat_repr n.natAbs).data) =
        -(nat_parse_chars (nat_repr n.natAbs).data : Nat) := by
      simp [int_parse_chars]
    have hdata : ("-" ++ nat_repr n.natAbs).data = '-' :: (nat_repr n.natAbs).data := rfl
    rw [hdata, hstep, nat_parse_chars_nat_repr]
    omega
  · rw [if_neg h]
    cases hd : (nat_repr n.toNat).data with
    | nil => exact absurd hd (nat_repr_data_ne_nil n.toNat)
    | cons c cs =>
      have hc : c ≠ '-' := by
        intro hc
        subst hc
        exact dash_not_mem_nat_repr n.toNat (hd ▸ List.mem_cons_self _ _)
      simp only [int_parse_chars, if_neg hc]
      rw [← hd, nat_parse_chars_nat_repr]
      omega

/-! ## Code-point string order: asymmetry, transitivity, connectedness -/

theorem charListLt_trans :
    ∀ a b c : List Char, charListLt a b = true → charListLt b c = true →
      charListLt a c = true := by
  intro a
  induction a with
  | nil =>
    intro b c hab hbc
    cases c with
    | nil =>
      cases b with
      | nil => simp [charListLt] at hab
      | cons y ys => simp [charListLt] at hbc
    | cons z zs => simp [charListLt]
  | cons x xs ih =>
    intro b c hab hbc
    cases b with
    | nil => simp [charListLt] at hab
    | cons y ys =>
      cases c with
      | nil => simp [charListLt] at hbc
      | cons z zs =>
        simp only [charListLt] at hab hbc ⊢
        by_cases hxy : x = y
        · subst hxy
          rw [if_pos rfl] at hab
          by_cases hyz : x = z
          · subst hyz
            rw [if_pos rfl] at hbc ⊢
            exact ih _ _ hab hbc
          · rw [if_neg hyz] at hbc ⊢
            exact hbc
        · rw [if_neg hxy] at hab
          by_cases hyz : y = z
          · subst hyz
            rw [if_neg hxy]
            exact hab
          · rw [if_neg hyz] at hbc
            have hxz : x < z := lt_trans (of_decide_eq_true hab) (of_decide_eq_true hbc)
            rw [if_neg (ne_of_lt hxz)]
            exact decide_eq_true hxz

theorem charListLt_asymm :
    ∀ a b : List Char, charListLt a b = true → charListLt b a = false := by
  intro a
  induction a with
  | nil =>
    intro b hab
    cases b with
    | nil => simp [charListLt] at hab
    | cons y ys => simp [charListLt]
  | cons x xs ih =>
    intro b hab
    cases b with
    | nil => simp [charListLt] at hab
    | cons y ys =>
      simp only [charListLt] at hab ⊢
      by_cases hxy : x = y
      · subst hxy
        rw [if_pos rfl] at hab ⊢
        exact ih _ hab
      · rw [if_neg hxy] at hab
        rw [if_neg (fun h => hxy h.symm)]
        exact decide_eq_false (not_lt.mpr (le_of_lt (of_decide_eq_true hab)))

theorem charListLt_connex :
    ∀ a b : List Char, charListLt a b = false → charListLt b a = false → a = b := by
  intro a
  induction a with
  | nil =>
    intro b h1 _h2
    cases b with
    | nil => rfl
    | cons y ys => simp [charListLt] at h1
  | cons x xs ih =>
    intro b h1 h2
    cases b with
    | nil => simp [charListLt] at h2
    | cons y ys =>
      simp only [charListLt] at h1 h2
      by_cases hxy : x = y
      · subst hxy
        rw [if_pos rfl] at h1 h2
        rw [ih _ h1 h2]
      · rw [if_neg hxy] at h1
        rw [if_neg (fun h => hxy h.symm)] at h2
        have hnx : ¬x < y := of_decide_eq_false h1
        have hny : ¬y < x := of_decide_eq_false h2
        exact absurd (le_antisymm (not_lt.mp hny) (not_lt.mp hnx)) hxy

theorem charListLt_false_trans :
    ∀ a b c : List Char, charListLt b a = false → charListLt c b = false →
      charListLt c a = false := by
  intro a b c hba hcb
  by_cases hca : charListLt c a = true
  · by_cases hab : charListLt a b = true
    · have h := charListLt_trans c a b hca hab
      rw [h] at hcb
      exact absurd hcb (by simp)
    · have heq : a = b := charListLt_connex a b (bool_eq_false hab) hba
      subst heq
      rw [hca] at hcb
      exact absurd hcb (by simp)
  · exact bool_eq_false hca

theorem string_data_eq {a b : String} (h : a.data = b.data) : a = b :=
  congrArg String.mk h

theorem strLe_refl (a : String) : strLe a a = true := by
  unfold strLe
  have h : charListLt a.data a.data = false := by
    by_cases h1 : charListLt a.data a.data = true
    · have h2 := charListLt_asymm _ _ h1
      rw [h1] at h2
      exact absurd h2 (by simp)
    · exact bool_eq_false h1
  rw [h]
  rfl

theorem strLe_total (a b : String) : strLe a b = true ∨ strLe b a = true := by
  unfold strLe
  by_cases h : charListLt b.data a.data = true
  · right
    rw [charListLt_asymm _ _ h]
    rfl
  · left
    rw [bool_eq_false h]
    rfl

theorem strLe_trans (a b c : String) (hab : strLe a b = true) (hbc : strLe b c = true) :
    strLe a c = true := by
  unfold strLe at hab hbc ⊢
  rw [Bool.not_eq_true'] at hab hbc ⊢
  exact charListLt_false_trans a.data b.data c.data hab hbc

theorem strLt_trans (a b c : String) (hab : strLt a b = true) (hbc : strLt b c = true) :
    strLt a c = true :=
  charListLt_trans a.data b.data c.data hab hbc

theorem strLt_or_eq_of_not_lt (a b : String) (h : strLt b a = false) :
    strLt a b = true ∨ a = b := by
  by_cases h1 : strLt a b = true
  · exact Or.inl h1
  · exact Or.inr (string_data_eq (charListLt_connex a.data b.data (bool_eq_false h1) h))

theorem pathLE_total : ∀ a b : List String, pathLE a b ∨ pathLE b a := by
  intro a b
  exact strLe_total (pathStr a) (pathStr b)

theorem pathLE_trans : ∀ a b c : List String, pathLE a b → pathLE b c → pathLE a c := by
  intro a b c hab hbc
  exact strLe_trans _ _ _ hab hbc

theorem dandisetEntryLE_total : ∀ a b : String × String, dandisetEntryLE a b ∨ dandisetEntryLE b a := by
  intro a b
  unfold dandisetEntryLE
  by_cases h1 : strLt a.1 b.1 = true
  · exact Or.inl (Or.inl h1)
  · rcases strLt_or_eq_of_not_lt b.1 a.1 (bool_eq_false h1) with h2 | h2
    · exact Or.inr (Or.inl h2)
    · rcases strLe_total a.2 b.2 with h3 | h3
      · exact Or.inl (Or.inr ⟨h2.symm, h3⟩)
      · exact Or.inr (Or.inr ⟨h2, h3⟩)

theorem strLt_of_le_of_lt (a b c : String) (hab : strLe a b = true) (hbc : strLt b c = true) :
    strLt a c = true := by
  unfold strLe at hab
  rw [Bool.not_eq_true'] at hab
  rcases strLt_or_eq_of_not_lt a b hab with h | h
  · exact strLt_trans _ _ _ h hbc
  · exact h ▸ hbc

theorem dandisetEntryLE_trans :
    ∀ a b c : String × String, dandisetEntryLE a b → dandisetEntryLE b c →
      dandisetEntryLE a c := by
  intro a b c hab hbc
  unfold dandisetEntryLE at hab hbc ⊢
  rcases hab with h1 | ⟨h1e, h1le⟩
  · rcases hbc with h2 | ⟨h2e, _h2le⟩
    · exact Or.inl (strLt_trans _ _ _ h1 h2)
    · exact Or.inl (h2e ▸ h1)
  · rcases hbc with h2 | ⟨h2e, h2le⟩
    · exact Or.inl (h1e ▸ h2)
    · exact Or.inr ⟨h1e.trans h2e, strLe_trans _ _ _ h1le h2le⟩

/-! ## Dict lemmas -/

theorem dictGet_dictInsert {K V : Type} [DecidableEq K] (m : Dict K V) (k k2 : K) (v : V) :
    dictGet (dictInsert m k v) k2 = if k = k2 then some v else dictGet m k2 := by
  induction m with
  | nil => simp [dictInsert, dictGet]
  | cons p rest ih =>
    obtain ⟨k1, v1⟩ := p
    by_cases h1 : k1 = k
    · subst h1
      simp only [dictInsert, if_pos rfl, dictGet]
      by_cases h2 : k1 = k2 <;> simp [h2]
    · simp only [dictInsert, if_neg h1]
      by_cases h2 : k1 = k2
      · subst h2
        have hne : ¬k = k1 := fun h => h1 h.symm
        simp [dictGet, if_neg hne]
      · simp [dictGet, h2, ih]

theorem mem_dictKeys_dictInsert {K V : Type} [DecidableEq K] (m : Dict K V) (k k2 : K) (v : V) :
    k2 ∈ dictKeys (dictInsert m k v) ↔ k2 = k ∨ k2 ∈ dictKeys m := by
  induction m with
  | nil => simp [dictInsert, dictKeys]
  | cons p rest ih =>
    obtain ⟨k1, v1⟩ := p
    by_cases h1 : k1 = k
    · subst h1
      rw [show dictInsert ((k1, v1) :: rest) k1 v = (k1, v) :: rest by
        simp [dictInsert]]
      simp only [dictKeys, List.map_cons, List.mem_cons]
      tauto
    · rw [show dictInsert ((k1, v1) :: rest) k v = (k1, v1) :: dictInsert rest k v by
        simp [dictInsert, h1]]
      simp only [dictKeys, List.map_cons, List.mem_cons]
      have ih2 : k2 ∈ List.map Prod.fst (dictInsert rest k v) ↔
          k2 = k ∨ k2 ∈ List.map Prod.fst rest := ih
      rw [ih2]
      tauto

theorem mem_dictKeys_key_fold (reports : List AssetValidationReport)
    (acc : Dict (List String) AssetValidationReport) (k : List String) :
    k ∈ dictKeys (reports.foldl (fun m r => dictInsert m (asset_report_key r) r) acc) ↔
      k ∈ dictKeys acc ∨ ∃ r ∈ reports, asset_report_key r = k := by
  induction reports generalizing acc with
  | nil => simp
  | cons r tl ih =>
    simp only [List.foldl_cons, List.mem_cons]
    rw [ih]
    rw [mem_dictKeys_dictInsert]
    constructor
    · rintro ((h | h) | ⟨r2, hr2, hk2⟩)
      · exact Or.inr ⟨r, Or.inl rfl, h.symm⟩
      · exact Or.inl h
      · exact Or.inr ⟨r2, Or.inr hr2, hk2⟩
    · rintro (h | ⟨r2, hr2 | hr2, hk2⟩)
      · exact Or.inl (Or.inr h)
      · subst hr2
        exact Or.inl (Or.inl hk2.symm)
      · exact Or.inr ⟨r2, hr2, hk2⟩

theorem mem_dictKeys_key_asset_reports (reports : AssetValidationReports) (k : List String)
    (h : k ∈ dictKeys (key_asset_reports reports)) :
    ∃ r ∈ reports, asset_report_key r = k := by
  unfold key_asset_reports at h
  rcases (mem_dictKeys_key_fold reports [] k).mp h with h2 | h2
  · simp [dictKeys] at h2
  · exact h2

/-! ## Keys of the emitted diff report lists -/

theorem map_key_filterMap {α β : Type} (key : β → α) (f : α → Option β) (l : List α)
    (h : ∀ a ∈ l, ∀ b, f a = some b → key b = a) :
    (l.filterMap f).map key = l.filter (fun a => (f a).isSome) := by
  induction l with
  | nil => rfl
  | cons a tl ih =>
    have htl : ∀ a2 ∈ tl, ∀ b, f a2 = some b → key b = a2 :=
      fun a2 ha2 b hb => h a2 (List.mem_cons_of_mem _ ha2) b hb
    cases hfa : f a with
    | none =>
      rw [List.filterMap_cons_none hfa, List.filter_cons_of_neg]
      · exact ih htl
      · simp [hfa]
    | some b =>
      rw [List.filterMap_cons_some hfa, List.filter_cons_of_pos]
      · rw [List.map_cons, h a (List.mem_cons_self _ _) b hfa, ih htl]
      · simp [hfa]

theorem dandiset_diff_at_key (reports1 reports2 : DandisetValidationReports)
    (e : String × String) (r : DandisetValidationDiffReport)
    (h : dandiset_diff_at reports1 reports2 e = some r) :
    dandiset_diff_report_key r = e := by
  simp only [dandiset_diff_at] at h
  split at h
  · exact absurd h (by simp)
  · obtain rfl := Option.some.inj h
    unfold dandiset_diff_report_key
    exact Prod.mk.eta

theorem dandiset_diff_at_isSome (reports1 reports2 : DandisetValidationReports)
    (e : String × String) :
    (dandiset_diff_at reports1 reports2 e).isSome =
      !dandiset_entry_all_empty reports1 reports2 e := by
  simp only [dandiset_diff_at]
  split <;> rename_i hcond <;> simp [hcond]

theorem asset_diff_at_key (rs1 rs2 : Dict (List String) AssetValidationReport)
    (r0 : AssetValidationReport) (r : AssetValidationDiffReport)
    (h : asset_diff_at rs1 rs2 (asset_report_key r0) = some r) :
    asset_diff_report_key r = asset_report_key r0 := by
  simp only [asset_diff_at, asset_report_key] at h
  split at h
  · exact absurd h (by simp)
  · obtain rfl := Option.some.inj h
    unfold asset_diff_report_key
    simp [int_parse_int_repr, asset_report_key]

theorem asset_diff_at_isSome (rs1 rs2 : Dict (List String) AssetValidationReport)
    (a b c : String) :
    (asset_diff_at rs1 rs2 [a, b, c]).isSome = !asset_entry_all_empty rs1 rs2 [a, b, c] := by
  simp only [asset_diff_at]
  split <;> rename_i hcond <;> simp [hcond]

theorem dandiset_diff_reports_keys (reports1 reports2 : DandisetValidationReports) :
    (dandiset_validation_diff_reports reports1 reports2).map dandiset_diff_report_key =
      (List.insertionSort dandisetEntryLE
        ((get_validation_reports_entries reports1 ++
          get_validation_reports_entries reports2).dedup)).filter
        (fun e => (dandiset_diff_at reports1 reports2 e).isSome) := by
  unfold dandiset_validation_diff_reports
  exact map_key_filterMap _ _ _
    (fun e _ r hr => dandiset_diff_at_key reports1 reports2 e r hr)

theorem mem_asset_entries_shape (reports1 reports2 : AssetValidationReports)
    (e : List String)
    (h : e ∈ List.insertionSort pathLE
      ((dictKeys (key_asset_reports reports1) ++ dictKeys (key_asset_reports reports2)).dedup)) :
    ∃ r0 : AssetValidationReport, asset_report_key r0 = e := by
  have h2 := (List.perm_insertionSort pathLE _).mem_iff.mp h
  rw [List.mem_dedup, List.mem_append] at h2
  rcases h2 with h3 | h3
  · obtain ⟨r0, _, hr0⟩ := mem_dictKeys_key_asset_reports reports1 e h3
    exact ⟨r0, hr0⟩
  · obtain ⟨r0, _, hr0⟩ := mem_dictKeys_key_asset_reports reports2 e h3
    exact ⟨r0, hr0⟩

theorem asset_diff_reports_keys (reports1 reports2 : AssetValidationReports) :
    (asset_validation_diff_reports reports1 reports2).map asset_diff_report_key =
      (List.insertionSort pathLE
        ((dictKeys (key_asset_reports reports1) ++
          dictKeys (key_asset_reports reports2)).dedup)).filter
        (fun e => (asset_diff_at (key_asset_reports reports1)
          (key_asset_reports reports2) e).isSome) := by
  unfold asset_validation_diff_reports
  apply map_key_filterMap
  intro e he r hr
  obtain ⟨r0, rfl⟩ := mem_asset_entries_shape reports1 reports2 e he
  exact asset_diff_at_key _ _ r0 r hr

/-! ## Union coverage and skip-empty (claim C1) -/

/-- C1: for every pair of input report collections (dandiset-level and
asset-level alike), the entity keys of the produced diff reports are exactly
the keys, drawn from the union of both collections' keys, at which the four
fetched error lists (pydantic and jsonschema, each side) are not all empty;
in particular a key with zero errors on both validators on both sides yields
no diff report. -/
theorem c1_union_coverage_and_skip_empty :
    (∀ (reports1 reports2 : DandisetValidationReports) (k : String × String),
      k ∈ (dandiset_validation_diff_reports reports1 reports2).map dandiset_diff_report_key ↔
        (k ∈ get_validation_reports_entries reports1 ++ get_validation_reports_entries reports2
          ∧ dandiset_entry_all_empty reports1 reports2 k = false))
  ∧ (∀ (reports1 reports2 : AssetValidationReports) (p : List String),
      p ∈ (asset_validation_diff_reports reports1 reports2).map asset_diff_report_key ↔
        (p ∈ dictKeys (key_asset_reports reports1) ++ dictKeys (key_asset_reports reports2)
          ∧ asset_entry_all_empty (key_asset_reports reports1) (key_asset_reports reports2) p
            = false)) := by
  constructor
  · intro reports1 reports2 k
    rw [dandiset_diff_reports_keys, List.mem_filter]
    have hperm := (List.perm_insertionSort dandisetEntryLE
      ((get_validation_reports_entries reports1 ++
        get_validation_reports_entries reports2).dedup)).mem_iff (a := k)
    constructor
    · rintro ⟨hmem, hcond⟩
      rw [dandiset_diff_at_isSome, Bool.not_eq_true'] at hcond
      exact ⟨List.mem_dedup.mp (hperm.mp hmem), hcond⟩
    · rintro ⟨hmem, hcond⟩
      refine ⟨hperm.mpr (List.mem_dedup.mpr hmem), ?_⟩
      rw [dandiset_diff_at_isSome, Bool.not_eq_true']
      exact hcond
  · intro reports1 reports2 p
    rw [asset_diff_reports_keys, List.mem_filter]
    have hperm := (List.perm_insertionSort pathLE
      ((dictKeys (key_asset_reports reports1) ++
        dictKeys (key_asset_reports reports2)).dedup)).mem_iff (a := p)
    constructor
    · rintro ⟨hmem, hcond⟩
      obtain ⟨r0, rfl⟩ := mem_asset_entries_shape reports1 reports2 p hmem
      rw [show asset_report_key r0 = [r0.dandiset_identifier, r0.dandiset_version,
        int_repr r0.asset_idx] from rfl] at hcond
      rw [asset_diff_at_isSome, Bool.not_eq_true'] at hcond
      exact ⟨List.mem_dedup.mp (hperm.mp hmem), hcond⟩
    · rintro ⟨hmem, hcond⟩
      have hmem2 := hperm.mpr (List.mem_dedup.mpr hmem)
      refine ⟨hmem2, ?_⟩
      obtain ⟨r0, rfl⟩ := mem_asset_entries_shape reports1 reports2 p hmem2
      rw [show asset_report_key r0 = [r0.dandiset_identifier, r0.dandiset_version,
        int_repr r0.asset_idx] from rfl]
      rw [asset_diff_at_isSome, Bool.not_eq_true']
      exact hcond

/-! ## Iteration order of the diff builders (claim C3) -/

/-- C3 counterexample: two asset reports at indices 2 and 10 of the same
dandiset version, each with one error, on one side only.  The emitted diff
reports come out ordered index 10 before index 2 (the sort compares the
stringified index inside the path), not 2 before 10 as the claim's numeric
comparison of asset indices requires. -/
theorem c3_numeric_index_order_counterexample :
    (asset_validation_diff_reports [assetReportIdx2, assetReportIdx10] []).map
        (fun r => r.asset_idx) = [10, 2]
    ∧ (asset_validation_diff_reports [assetReportIdx2, assetReportIdx10] []).map
        (fun r => r.asset_idx) ≠ [2, 10] := by
  constructor
  · decide
  · decide

/-- C3 amended: the diff builders iterate the union of entity keys in a
total, deterministic order and the emitted lists follow it, but the order is
string comparison throughout: lexicographic on (identifier, version) for
dandiset keys, and code-point comparison of the joined path string — with
the asset index compared as its decimal string — for asset keys (so an asset
at index 10 is ordered before an asset at index 2 within the same dandiset
version). -/
theorem c3_iteration_order_amended :
    (∀ reports1 reports2 : DandisetValidationReports,
      List.Sorted dandisetEntryLE
        ((dandiset_validation_diff_reports reports1 reports2).map dandiset_diff_report_key))
  ∧ (∀ reports1 reports2 : AssetValidationReports,
      List.Sorted pathLE
        ((asset_validation_diff_reports reports1 reports2).map asset_diff_report_key))
  ∧ (asset_validation_diff_reports [assetReportIdx10] []).map asset_diff_report_key
      = [["000001", "draft", "10"]] := by
  refine ⟨?_, ?_, by decide⟩
  · intro reports1 reports2
    rw [dandiset_diff_reports_keys]
    haveI : IsTotal (String × String) dandisetEntryLE := ⟨dandisetEntryLE_total⟩
    haveI : IsTrans (String × String) dandisetEntryLE := ⟨dandisetEntryLE_trans⟩
    exact List.Pairwise.filter _ (List.sorted_insertionSort dandisetEntryLE _)
  · intro reports1 reports2
    rw [asset_diff_reports_keys]
    haveI : IsTotal (List String) pathLE := ⟨pathLE_total⟩
    haveI : IsTrans (List String) pathLE := ⟨pathLE_trans⟩
    exact List.Pairwise.filter _ (List.sorted_insertionSort pathLE _)

/-! ## Defaulting of an absent side (claim C4) -/

/-- C4: a key absent on one side gets that side's error lists defaulted to
empty lists in the produced diff report; and the concrete one-sided example
(collection A holds ("ds1", "draft") with no errors, collection B holds the
same key with one error) produces exactly one diff report, with an empty
side-1 list, a one-element side-2 list, and a pure-addition diff. -/
theorem c4_one_sided_defaults :
    (∀ (reports1 reports2 : DandisetValidationReports) (r : DandisetValidationDiffReport),
      r ∈ dandiset_validation_diff_reports reports1 reports2 →
      dandiset_reports_get reports1 r.dandiset_identifier r.dandiset_version = none →
      r.pydantic_validation_errs1 = [] ∧ r.jsonschema_validation_errs1 = [])
  ∧ (∀ (reports1 reports2 : DandisetValidationReports) (r : DandisetValidationDiffReport),
      r ∈ dandiset_validation_diff_reports reports1 reports2 →
      dandiset_reports_get reports2 r.dandiset_identifier r.dandiset_version = none →
      r.pydantic_validation_errs2 = [] ∧ r.jsonschema_validation_errs2 = [])
  ∧ dandiset_validation_diff_reports reportsCollectionA reportsCollectionB =
      [exDiffReportB] := by
  refine ⟨?_, ?_, by decide⟩
  · intro reports1 reports2 r hr hget
    unfold dandiset_validation_diff_reports at hr
    obtain ⟨e, _he, hfe⟩ := List.mem_filterMap.mp hr
    simp only [dandiset_diff_at] at hfe
    split at hfe
    · exact absurd hfe (by simp)
    · obtain rfl := Option.some.inj hfe
      have hget2 : dandiset_reports_get reports1 e.1 e.2 = none := hget
      constructor <;> simp [dandiset_entry_errs, hget2]
  · intro reports1 reports2 r hr hget
    unfold dandiset_validation_diff_reports at hr
    obtain ⟨e, _he, hfe⟩ := List.mem_filterMap.mp hr
    simp only [dandiset_diff_at] at hfe
    split at hfe
    · exact absurd hfe (by simp)
    · obtain rfl := Option.some.inj hfe
      have hget2 : dandiset_reports_get reports2 e.1 e.2 = none := hget
      constructor <;> simp [dandiset_entry_errs, hget2]

/-- Witness for C4 at a concrete input: the key ("ds1", "draft") is absent
from the empty collection on side 1, and the produced report defaults both
side-1 error lists to empty. -/
theorem c4_one_sided_defaults_witness :
    exDiffReportB.pydantic_validation_errs1 = []
    ∧ exDiffReportB.jsonschema_validation_errs1 = [] :=
  c4_one_sided_defaults.1 ([] : DandisetValidationReports) reportsCollectionB
    exDiffReportB (by decide) (by decide)

/-! ## Supporting files are written only for non-empty data (claim C8) -/

theorem mem_ite_nil_iff {α : Type} (a : α) (c : Prop) [Decidable c] (l : List α) :
    (a ∈ if c then l else []) ↔ c ∧ a ∈ l := by
  split <;> rename_i h <;> simp [h]

theorem ne_nil_iff_isEmpty_false {α : Type} (l : List α) : l ≠ [] ↔ l.isEmpty = false := by
  cases l <;> simp

/-- C8: when writing an individual diff report's supporting files, each of
the six data items gets its files written exactly when the underlying data is
non-empty: the item's data-interchange file appears in the written files if
and only if the corresponding error list is non-empty (respectively the
corresponding diff is non-empty). -/
theorem c8_files_written_iff_nonempty :
    ∀ r : DandiValidationDiffReport,
      ((PYDANTIC_ERRS1_BASE_FNAME ++ ".json" ∈ output_supporting_files r ↔
        r.pydantic_validation_errs1 ≠ [])
      ∧ (PYDANTIC_ERRS2_BASE_FNAME ++ ".json" ∈ output_supporting_files r ↔
        r.pydantic_validation_errs2 ≠ [])
      ∧ (PYDANTIC_ERRS_DIFF_BASE_FNAME ++ ".json" ∈ output_supporting_files r ↔
        r.pydantic_validation_errs_diff.isEmpty = false)
      ∧ (JSONSCHEMA_ERRS1_BASE_FNAME ++ ".json" ∈ output_supporting_files r ↔
        r.jsonschema_validation_errs1 ≠ [])
      ∧ (JSONSCHEMA_ERRS2_BASE_FNAME ++ ".json" ∈ output_supporting_files r ↔
        r.jsonschema_validation_errs2 ≠ [])
      ∧ (JSONSCHEMA_ERRS_DIFF_BASE_FNAME ++ ".json" ∈ output_supporting_files r ↔
        r.jsonschema_validation_errs_diff.isEmpty = false)) := by
  intro r
  simp only [output_supporting_files, List.mem_append, mem_ite_nil_iff,
    ne_nil_iff_isEmpty_false]
  refine ⟨?_, ?_, ?_, ?_, ?_, ?_⟩ <;>
    · constructor
      · intro h
        rcases h with ((((⟨hc, hm⟩ | ⟨hc, hm⟩) | ⟨hc, hm⟩) | ⟨hc, hm⟩) | ⟨hc, hm⟩) | ⟨hc, hm⟩ <;>
          first
          | exact absurd hm (by decide)
          | (rw [Bool.not_eq_true'] at hc; exact hc)
      · intro h
        first
        | exact Or.inl (Or.inl (Or.inl (Or.inl (Or.inl ⟨by simp [h], by decide⟩))))
        | exact Or.inl (Or.inl (Or.inl (Or.inl (Or.inr ⟨by simp [h], by decide⟩))))
        | exact Or.inl (Or.inl (Or.inl (Or.inr ⟨by simp [h], by decide⟩)))
        | exact Or.inl (Or.inl (Or.inr ⟨by simp [h], by decide⟩))
        | exact Or.inl (Or.inr ⟨by simp [h], by decide⟩)
        | exact Or.inr ⟨by simp [h], by decide⟩

/-! ## Keying with duplicate entity keys (claim C10) -/

theorem attr_key_asset (a : AssetValidationReport) :
    attr_key (AnyReport.asset a) ["dandiset_identifier", "dandiset_version", "asset_idx"] =
      Except.ok (asset_report_key a) := rfl

theorem dictInsert_map_asset (m : Dict (List String) AssetValidationReport)
    (k : List String) (r : AssetValidationReport) :
    dictInsert (m.map (fun p => (p.1, AnyReport.asset p.2))) k (AnyReport.asset r) =
      (dictInsert m k r).map (fun p => (p.1, AnyReport.asset p.2)) := by
  induction m with
  | nil => rfl
  | cons p rest ih =>
    obtain ⟨k1, v1⟩ := p
    by_cases h : k1 = k
    · simp [dictInsert, h]
    · simp [dictInsert, h, ih]

theorem key_fold_map_asset (reports : List AssetValidationReport)
    (m : Dict (List String) AssetValidationReport) :
    (reports.map AnyReport.asset).foldlM
        (key_reports_step ["dandiset_identifier", "dandiset_version", "asset_idx"])
        (m.map (fun p => (p.1, AnyReport.asset p.2))) =
      Except.ok ((reports.foldl (fun m2 r => dictInsert m2 (asset_report_key r) r) m).map
        (fun p => (p.1, AnyReport.asset p.2))) := by
  induction reports generalizing m with
  | nil => rfl
  | cons r tl ih =>
    rw [List.map_cons, List.foldlM_cons, List.foldl_cons]
    have hstep : key_reports_step ["dandiset_identifier", "dandiset_version", "asset_idx"]
        (m.map (fun p => (p.1, AnyReport.asset p.2))) (AnyReport.asset r) =
        Except.ok ((dictInsert m (asset_report_key r) r).map
          (fun p => (p.1, AnyReport.asset p.2))) := by
      rw [show key_reports_step ["dandiset_identifier", "dandiset_version", "asset_idx"]
          (m.map (fun p => (p.1, AnyReport.asset p.2))) (AnyReport.asset r) =
          Except.ok (dictInsert (m.map (fun p => (p.1, AnyReport.asset p.2)))
            (asset_report_key r) (AnyReport.asset r)) from rfl]
      rw [dictInsert_map_asset]
    rw [hstep]
    exact ih (dictInsert m (asset_report_key r) r)

theorem key_reports_map_asset (reports : AssetValidationReports) :
    key_reports (reports.map AnyReport.asset) =
      Except.ok ((key_asset_reports reports).map (fun p => (p.1, AnyReport.asset p.2))) := by
  cases reports with
  | nil => rfl
  | cons r tl =>
    have h := key_fold_map_asset (r :: tl) []
    rw [show key_reports ((r :: tl).map AnyReport.asset) =
        ((r :: tl).map AnyReport.asset).foldlM
          (key_reports_step ["dandiset_identifier", "dandiset_version", "asset_idx"]) []
        from rfl]
    exact h

theorem dictGet_key_asset_reports (reports : AssetValidationReports) (k : List String) :
    dictGet (key_asset_reports reports) k =
      reports.reverse.find? (fun r => decide (asset_report_key r = k)) := by
  unfold key_asset_reports
  induction reports using List.reverseRecOn with
  | nil => rfl
  | append_singleton xs x ih =>
    rw [List.foldl_append, List.foldl_cons, List.foldl_nil, dictGet_dictInsert,
      List.reverse_append]
    simp only [List.reverse_singleton, List.singleton_append]
    by_cases hk : asset_report_key x = k
    · rw [if_pos hk, List.find?_cons_of_pos _ (by simp [hk])]
    · rw [if_neg hk, List.find?_cons_of_neg _ (by simp [hk])]
      exact ih

/-- C10: keying a collection in which two reports map to the same entity key
path raises no error — keying an asset report collection always succeeds —
and the resulting mapping retains, for every key, exactly the last report in
input order with that key (so earlier duplicates are silently overwritten);
the concrete duplicate pair demonstrates the overwrite. -/
theorem c10_duplicate_keys_last_wins :
    (∀ (reports : AssetValidationReports) (k : List String),
      key_reports (reports.map AnyReport.asset) =
        Except.ok ((key_asset_reports reports).map (fun p => (p.1, AnyReport.asset p.2)))
      ∧ dictGet (key_asset_reports reports) k =
          reports.reverse.find? (fun r => decide (asset_report_key r = k)))
    ∧ dictGet (key_asset_reports [assetReportIdx2, assetReportIdx2Later])
        (asset_report_key assetReportIdx2) = some assetReportIdx2Later := by
  refine ⟨fun reports k => ⟨key_reports_map_asset reports, dictGet_key_asset_reports reports k⟩, ?_⟩
  decide

/-! ## Report-variant dispatch (claim C9) -/

theorem attr_key_cases (r : AnyReport) (parts : List String) :
    (∃ l, attr_key r parts = Except.ok l) ∨
      attr_key r parts = Except.error DispatchError.attributeError := by
  induction parts with
  | nil => exact Or.inl ⟨[], rfl⟩
  | cons p ps ih =>
    cases hp : report_attr r p with
    | none =>
      right
      simp [attr_key, hp]
    | some s =>
      rcases ih with ⟨l, hl⟩ | he
      · left
        exact ⟨s :: l, by simp [attr_key, hp, hl, Except.map]⟩
      · right
        simp [attr_key, hp, he, Except.map]

theorem key_fold_cases (parts : List String) :
    ∀ (rs : List AnyReport) (acc : Dict (List String) AnyReport),
      (∃ m, rs.foldlM (key_reports_step parts) acc = Except.ok m) ∨
        rs.foldlM (key_reports_step parts) acc =
          Except.error DispatchError.attributeError := by
  intro rs
  induction rs with
  | nil => intro acc; exact Or.inl ⟨acc, rfl⟩
  | cons r tl ih =>
    intro acc
    rw [List.foldlM_cons]
    rcases attr_key_cases r parts with ⟨l, hl⟩ | he
    · have hstep : key_reports_step parts acc r = Except.ok (dictInsert acc l r) := by
        simp [key_reports_step, hl, bind, Except.bind, pure, Except.pure]
      rw [hstep]
      exact ih (dictInsert acc l r)
    · have hstep : key_reports_step parts acc r = Except.error DispatchError.attributeError := by
        simp [key_reports_step, he, bind, Except.bind]
      rw [hstep]
      right
      rfl

theorem key_reports_unsupported_iff (rs : List AnyReport) :
    key_reports rs = Except.error DispatchError.unsupportedType ↔
      rs.head? = some AnyReport.unsupported := by
  cases rs with
  | nil => simp [key_reports]
  | cons r0 tl =>
    cases r0 with
    | dandiset d =>
      rw [show key_reports (AnyReport.dandiset d :: tl) =
          (AnyReport.dandiset d :: tl).foldlM
            (key_reports_step ["dandiset_identifier", "dandiset_version"]) [] from rfl]
      constructor
      · intro h
        rcases key_fold_cases _ (AnyReport.dandiset d :: tl) [] with ⟨m, hm⟩ | he
        · rw [hm] at h
          exact absurd h (by simp)
        · rw [he] at h
          exact absurd h (by simp)
      · intro h
        simp at h
    | asset a =>
      rw [show key_reports (AnyReport.asset a :: tl) =
          (AnyReport.asset a :: tl).foldlM
            (key_reports_step ["dandiset_identifier", "dandiset_version", "asset_idx"]) []
          from rfl]
      constructor
      · intro h
        rcases key_fold_cases _ (AnyReport.asset a :: tl) [] with ⟨m, hm⟩ | he
        · rw [hm] at h
          exact absurd h (by simp)
        · rw [he] at h
          exact absurd h (by simp)
      · intro h
        simp at h
    | unsupported =>
      constructor
      · intro _
        rfl
      · intro _
        rfl

theorem diff_instance_path_dandiset_cases (r : AnyDiffReport) :
    (∃ p, diff_instance_path_dandiset r = Except.ok p) ∨
      diff_instance_path_dandiset r = Except.error DispatchError.attributeError := by
  cases r with
  | dandiset d => exact Or.inl ⟨_, rfl⟩
  | asset a => exact Or.inl ⟨_, rfl⟩
  | unsupported => exact Or.inr rfl

theorem diff_instance_path_asset_cases (r : AnyDiffReport) :
    (∃ p, diff_instance_path_asset r = Except.ok p) ∨
      diff_instance_path_asset r = Except.error DispatchError.attributeError := by
  cases r with
  | dandiset d => exact Or.inr rfl
  | asset a => exact Or.inl ⟨_, rfl⟩
  | unsupported => exact Or.inr rfl

theorem diff_report_errs_cases (r : AnyDiffReport) :
    (∃ v, diff_report_errs r = Except.ok v) ∨
      diff_report_errs r = Except.error DispatchError.attributeError := by
  cases r with
  | dandiset d => exact Or.inl ⟨_, rfl⟩
  | asset a => exact Or.inl ⟨_, rfl⟩
  | unsupported => exact Or.inr rfl

theorem err_fold_cases (ip : AnyDiffReport → Except DispatchError (List String))
    (hip : ∀ r, (∃ p, ip r = Except.ok p) ∨ ip r = Except.error DispatchError.attributeError) :
    ∀ (rs : List AnyDiffReport) (acc : ErrRepLists),
      (∃ v, rs.foldlM (err_reps_step ip) acc = Except.ok v) ∨
        rs.foldlM (err_reps_step ip) acc = Except.error DispatchError.attributeError := by
  intro rs
  induction rs with
  | nil => intro acc; exact Or.inl ⟨acc, rfl⟩
  | cons r tl ih =>
    intro acc
    rw [List.foldlM_cons]
    rcases hip r with ⟨p, hp⟩ | hp
    · rcases diff_report_errs_cases r with ⟨v, hv⟩ | hv
      · have hstep : err_reps_step ip acc r = Except.ok
            (acc.1 ++ v.1.map (pydantic_err_rep · p),
              acc.2.1 ++ v.2.1.map (pydantic_err_rep · p),
              acc.2.2.1 ++ v.2.2.1.map (jsonschema_err_rep · p),
              acc.2.2.2 ++ v.2.2.2.map (jsonschema_err_rep · p)) := by
          simp [err_reps_step, hp, hv, bind, Except.bind, pure, Except.pure]
        rw [hstep]
        exact ih _
      · have hstep : err_reps_step ip acc r = Except.error DispatchError.attributeError := by
          simp [err_reps_step, hp, hv, bind, Except.bind]
        rw [hstep]
        right
        rfl
    · have hstep : err_reps_step ip acc r = Except.error DispatchError.attributeError := by
        simp [err_reps_step, hp, bind, Except.bind]
      rw [hstep]
      right
      rfl

theorem err_reps_unsupported_iff (rs : List AnyDiffReport) :
    err_reps rs = Except.error DispatchError.unsupportedType ↔
      rs.head? = some AnyDiffReport.unsupported := by
  cases rs with
  | nil => simp [err_reps]
  | cons r0 tl =>
    cases r0 with
    | dandiset d =>
      rw [show err_reps (AnyDiffReport.dandiset d :: tl) =
          (AnyDiffReport.dandiset d :: tl).foldlM
            (err_reps_step diff_instance_path_dandiset) ([], [], [], []) from rfl]
      constructor
      · intro h
        rcases err_fold_cases _ diff_instance_path_dandiset_cases
          (AnyDiffReport.dandiset d :: tl) ([], [], [], []) with ⟨v, hv⟩ | he
        · rw [hv] at h
          exact absurd h (by simp)
        · rw [he] at h
          exact absurd h (by simp)
      · intro h
        simp at h
    | asset a =>
      rw [show err_reps (AnyDiffReport.asset a :: tl) =
          (AnyDiffReport.asset a :: tl).foldlM
            (err_reps_step diff_instance_path_asset) ([], [], [], []) from rfl]
      constructor
      · intro h
        rcases err_fold_cases _ diff_instance_path_asset_cases
          (AnyDiffReport.asset a :: tl) ([], [], [], []) with ⟨v, hv⟩ | he
        · rw [hv] at h
          exact absurd h (by simp)
        · rw [he] at h
          exact absurd h (by simp)
      · intro h
        simp at h
    | unsupported =>
      constructor
      · intro _
        rfl
      · intro _
        rfl

theorem attr_key_dandi_scheme (x : AnyReport) (hx : x ≠ AnyReport.unsupported) :
    attr_key x ["dandiset_identifier", "dandiset_version"] =
      Except.ok (dandi_scheme_key x) := by
  cases x with
  | dandiset r => rfl
  | asset r => rfl
  | unsupported => exact absurd rfl hx

theorem key_fold_dandi_scheme :
    ∀ (rs : List AnyReport) (acc : Dict (List String) AnyReport),
      (∀ x ∈ rs, x ≠ AnyReport.unsupported) →
      rs.foldlM (key_reports_step ["dandiset_identifier", "dandiset_version"]) acc =
        Except.ok (rs.foldl (fun m x => dictInsert m (dandi_scheme_key x) x) acc) := by
  intro rs
  induction rs with
  | nil => intro acc _; rfl
  | cons r tl ih =>
    intro acc h
    rw [List.foldlM_cons, List.foldl_cons]
    have hstep : key_reports_step ["dandiset_identifier", "dandiset_version"] acc r =
        Except.ok (dictInsert acc (dandi_scheme_key r) r) := by
      simp [key_reports_step, attr_key_dandi_scheme r (h r (List.mem_cons_self _ _)),
        bind, Except.bind, pure, Except.pure]
    rw [hstep]
    exact ih (dictInsert acc (dandi_scheme_key r) r)
      (fun x hx => h x (List.mem_cons_of_mem _ hx))

theorem attr_key_asset_scheme_dandiset (d : DandisetValidationReport) :
    attr_key (AnyReport.dandiset d)
        ["dandiset_identifier", "dandiset_version", "asset_idx"] =
      Except.error DispatchError.attributeError := rfl

theorem key_fold_error (parts : List String) :
    ∀ (rs : List AnyReport) (acc : Dict (List String) AnyReport) (x : AnyReport),
      x ∈ rs →
      attr_key x parts = Except.error DispatchError.attributeError →
      rs.foldlM (key_reports_step parts) acc =
        Except.error DispatchError.attributeError := by
  intro rs
  induction rs with
  | nil =>
    intro acc x hx _
    exact absurd hx (by simp)
  | cons r tl ih =>
    intro acc x hx hxe
    rw [List.foldlM_cons]
    rcases attr_key_cases r parts with ⟨l, hl⟩ | he
    · have hstep : key_reports_step parts acc r = Except.ok (dictInsert acc l r) := by
        simp [key_reports_step, hl, bind, Except.bind, pure, Except.pure]
      rw [hstep]
      rcases List.mem_cons.mp hx with rfl | hx2
      · rw [hl] at hxe
        exact absurd hxe (by simp)
      · exact ih (dictInsert acc l r) x hx2 hxe
    · have hstep : key_reports_step parts acc r = Except.error DispatchError.attributeError := by
        simp [key_reports_step, he, bind, Except.bind]
      rw [hstep]
      rfl

/-- C9 counterexample: a mixed collection whose first element is of a
supported (asset-level) type is not always processed without raising — the
dandiset-level report later in the collection lacks the asset index
attribute, so keying raises (an attribute error, not the unsupported-type
error). -/
theorem c9_mixed_first_supported_raises :
    key_reports [AnyReport.asset assetReportIdx2, AnyReport.dandiset reportDs1OneErr] =
      Except.error DispatchError.attributeError := rfl

/-- C9 amended: the dispatch inspects only the first element, and the
unsupported-type error is raised iff the collection is non-empty with an
unsupported first element — in both the keying function and the
representation extraction.  A mixed collection whose first element is
dandiset-level is keyed with the dandiset scheme applied to every element
without raising, provided no element is of an unsupported type; but with an
asset-level first element, a dandiset-level element anywhere later makes
keying raise an attribute error, because that element lacks the asset index
field of the chosen scheme. -/
theorem c9_first_element_dispatch_amended :
    (∀ rs : List AnyReport,
      key_reports rs = Except.error DispatchError.unsupportedType ↔
        rs.head? = some AnyReport.unsupported)
  ∧ (∀ rs : List AnyDiffReport,
      err_reps rs = Except.error DispatchError.unsupportedType ↔
        rs.head? = some AnyDiffReport.unsupported)
  ∧ (∀ (d : DandisetValidationReport) (tl : List AnyReport),
      (∀ x ∈ tl, x ≠ AnyReport.unsupported) →
      key_reports (AnyReport.dandiset d :: tl) =
        Except.ok ((AnyReport.dandiset d :: tl).foldl
          (fun m x => dictInsert m (dandi_scheme_key x) x) []))
  ∧ (∀ (a : AssetValidationReport) (tl : List AnyReport) (d : DandisetValidationReport),
      AnyReport.dandiset d ∈ tl →
      key_reports (AnyReport.asset a :: tl) =
        Except.error DispatchError.attributeError) := by
  refine ⟨key_reports_unsupported_iff, err_reps_unsupported_iff, ?_, ?_⟩
  · intro d tl h
    rw [show key_reports (AnyReport.dandiset d :: tl) =
        (AnyReport.dandiset d :: tl).foldlM
          (key_reports_step ["dandiset_identifier", "dandiset_version"]) [] from rfl]
    exact key_fold_dandi_scheme (AnyReport.dandiset d :: tl) []
      (by
        intro x hx
        rcases List.mem_cons.mp hx with rfl | hx2
        · intro hcontra
          exact absurd hcontra (by simp)
        · exact h x hx2)
  · intro a tl d hd
    rw [show key_reports (AnyReport.asset a :: tl) =
        (AnyReport.asset a :: tl).foldlM
          (key_reports_step ["dandiset_identifier", "dandiset_version", "asset_idx"]) []
        from rfl]
    exact key_fold_error _ (AnyReport.asset a :: tl) [] (AnyReport.dandiset d)
      (List.mem_cons_of_mem _ hd) (attr_key_asset_scheme_dandiset d)

/-- Witness for C9's amended statement at concrete inputs: a dandiset-first
mixed collection keys without raising, an asset-first mixed collection with a
later dandiset-level report raises the attribute error. -/
theorem c9_first_element_dispatch_amended_witness :
    key_reports [AnyReport.dandiset reportDs1OneErr, AnyReport.asset assetReportIdx10] =
      Except.ok ([AnyReport.dandiset reportDs1OneErr,
        AnyReport.asset assetReportIdx10].foldl
          (fun m x => dictInsert m (dandi_scheme_key x) x) [])
    ∧ key_reports [AnyReport.asset assetReportIdx10, AnyReport.dandiset reportDs1NoErrs] =
        Except.error DispatchError.attributeError :=
  ⟨c9_first_element_dispatch_amended.2.2.1 reportDs1OneErr
      [AnyReport.asset assetReportIdx10] (by decide),
    c9_first_element_dispatch_amended.2.2.2 assetReportIdx10
      [AnyReport.dandiset reportDs1NoErrs] reportDs1NoErrs (by simp)⟩

end DLST
